import Mathlib

/-!
# runpty: run a program in the slave end of a pseudo tty

A shallow embedding of `c_src/runpty.c` and the verification of its relay loop,
its shutdown sequence and its exit-code translation.

System calls are modelled by their results: every call made by the program takes
its outcome from an explicit environment record, so a statement quantified over
environments covers every way the operating system can answer.

The embedding follows the build for Linux: without `DEBUG` (the `DBG` lines
expand to nothing), without `USE_OPENPTY` and without `NEED_STREAMS`. Constants
and macros of the system headers carry their Linux and glibc definitions.
-/

namespace Runpty

/-! ## Platform constants and machine integers -/

/-- One `char` of a buffer. -/
abbrev Byte := Fin 256

/-- Signal numbers (Linux). -/
def SIGINT : Int := 2

def SIGKILL : Int := 9

def SIGTERM : Int := 15

def SIGCHLD : Int := 17

/-- Error numbers (Linux, where both names denote the same value). -/
def EAGAIN : Int := 11

def EWOULDBLOCK : Int := 11

/-- File status flag of `fcntl` (Linux). -/
def O_NONBLOCK : Nat := 2048

def INT_MAX : Int := 2147483647

def INT_MIN : Int := -2147483648

/-- Two-complement wrap-around of a C `int` (32 bits). -/
def wrapInt (x : Int) : Int := (x + 2147483648) % 4294967296 - 2147483648

/-- The value `sizeof(inbuf)` and `sizeof(outbuf)`: `char inbuf[BUFSIZ*4]`.
`BUFSIZ` comes from `<stdio.h>` and is a parameter here. -/
def capacity (BUFSIZ : Nat) : Nat := BUFSIZ * 4

/-! ## Signal handler (lines 61-71) -/

/-- The handler `sighdlr(sig)`, as a function of the signal and of the current
value of the global `quit`; the result is the new value of `quit`. -/
def sighdlr (sig : Int) (quit : Int) : Int :=
  if sig = SIGCHLD then quit else wrapInt (quit + 1)

/-! ## Pty allocation (lines 84-98) -/

/-- The function `openmaster` (the variant without `USE_OPENPTY`): the arguments
are the results of `posix_openpt`, `grantpt`, `unlockpt` and `ptsname`; the
result is `none` for `NULL`, otherwise the slave path with `*master` and
`*slave`. -/
def openmaster (posix_openpt grantpt unlockpt : Int) (ptsname : Option String) :
    Option (String × Int × Int) :=
  let m := posix_openpt
  if m < 0 then none
  else if grantpt < 0 then none
  else if unlockpt < 0 then none
  else match ptsname with
    | none => none
    | some path => some (path, m, -1)

/-! ## Descriptor flags (lines 101-118) -/

/-- The part of the kernel descriptor table that `fcntl` touches. The status
flags belong to the open file description, which several descriptors may share.
Every descriptor passed to `fcntl` is taken to be open, so the calls succeed. -/
structure FdTable where
  /-- The open file description a descriptor refers to. -/
  desc : Int → Nat
  /-- The status flags of each open file description. -/
  flags : Nat → Nat

/-- The call `fcntl(fd, F_GETFL, 0)`. -/
def fcntl_getfl (t : FdTable) (fd : Int) : Nat := t.flags (t.desc fd)

/-- The call `fcntl(fd, F_SETFL, v)`. -/
def fcntl_setfl (t : FdTable) (fd : Int) (v : Nat) : FdTable :=
  { t with flags := fun d => if d = t.desc fd then v else t.flags d }

/-- The function `set_nonblocking(fd, outfd)`; the result carries the new table
and the globals `prev_fd_flags` and `prev_outfd_flags`. -/
def set_nonblocking (t : FdTable) (fd outfd : Int) : FdTable × Nat × Nat :=
  let prev_fd_flags := fcntl_getfl t fd
  let t := fcntl_setfl t fd (prev_fd_flags ||| O_NONBLOCK)
  let prev_outfd_flags := fcntl_getfl t outfd
  let t := fcntl_setfl t outfd (prev_outfd_flags ||| O_NONBLOCK)
  (t, prev_fd_flags, prev_outfd_flags)

/-- The function `restore_blocking(fd, outfd)`. -/
def restore_blocking (t : FdTable) (fd outfd : Int) (prev_fd_flags prev_outfd_flags : Nat) :
    FdTable :=
  let t := fcntl_setfl t fd prev_fd_flags
  fcntl_setfl t outfd prev_outfd_flags

/-- Line 199, `set_nonblocking(in, master)`: the descriptor table in force when
the relay loop starts. The loop makes no `fcntl` call, so the table stays as it
is until `restore_blocking(in, master)` at line 285. -/
def tableAtLoop (t : FdTable) (stdin master : Int) : FdTable :=
  (set_nonblocking t stdin master).1

/-- Whether reads and writes on `fd` are non-blocking. -/
def isNonblocking (t : FdTable) (fd : Int) : Bool :=
  (fcntl_getfl t fd &&& O_NONBLOCK) != 0

/-! ## Descriptor sets and `select` -/

abbrev FdSet := List Int

def FD_ZERO : FdSet := []

def FD_SET (fd : Int) (set : FdSet) : FdSet := fd :: set

def FD_ISSET (fd : Int) (set : FdSet) : Bool := decide (fd ∈ set)

/-- The call `select(nfds, &readfds, &writefds, NULL, NULL)`. The environment
supplies the return value `ret` and the descriptors that are ready for reading
and for writing. On failure the sets are left as they were; otherwise each set
keeps those of its members that are ready. Descriptors at or above `nfds` are
not examined by the kernel: `rready` and `wready` stand for whatever the call
leaves in their bits. -/
def select (_nfds : Int) (readfds writefds : FdSet) (ret : Int) (rready wready : FdSet) :
    Int × FdSet × FdSet :=
  if ret < 0 then (ret, readfds, writefds)
  else (ret, readfds.filter (fun fd => decide (fd ∈ rready)),
             writefds.filter (fun fd => decide (fd ∈ wready)))

/-! ## Results of `read` and `write` -/

/-- The result of a `read`: the bytes delivered (none at end of file), or a
failure with its `errno`. -/
inductive ReadRes where
  | data (bytes : List Byte)
  | fail (errno : Int)

/-- The return value of the `read`. -/
def ReadRes.ret : ReadRes → Int
  | .data bytes => bytes.length
  | .fail _ => -1

/-- The bytes the `read` stored at the start of the buffer. -/
def ReadRes.bytes : ReadRes → List Byte
  | .data bytes => bytes
  | .fail _ => []

/-- The result of a `write`: its return value and the `errno` it leaves. -/
structure WriteRes where
  ret : Int
  errno : Int

/-- The bytes `buf[lo .. hi)`; indices outside the buffer are clamped. -/
def slice (buf : List Byte) (lo hi : Int) : List Byte :=
  (buf.take hi.toNat).drop lo.toNat

/-- The buffer after a `read` stored `data` at its start. -/
def readInto (buf data : List Byte) : List Byte :=
  data ++ buf.drop data.length

/-- The bytes that the destination accepted from `write(fd, buf+off, count)`
returning `ret`: the first `ret` of the `count` bytes offered. -/
def written (buf : List Byte) (off count ret : Int) : List Byte :=
  (slice buf off (off + count)).take ret.toNat

/-! ## Relay loop (lines 204-265) -/

/-- The variables of `main` that the relay loop uses, the global `quit`, and,
in the last four fields, a record of the bytes that crossed each end of the two
directions (these four are not program variables). -/
structure State where
  quit : Int
  inr : Int
  inw : Int
  outr : Int
  outw : Int
  inbuf : List Byte
  outbuf : List Byte
  incnt : Int
  outcnt : Int
  /-- Bytes read so far from `in`. -/
  inSrc : List Byte
  /-- Bytes accepted so far by `master`. -/
  inDst : List Byte
  /-- Bytes read so far from `master`. -/
  outSrc : List Byte
  /-- Bytes accepted so far by `out`. -/
  outDst : List Byte

/-- The descriptors `in`, `out` and `master` of `main`. -/
structure Fds where
  in_ : Int
  out : Int
  master : Int

/-- The argument of the `QUIT` that left the loop. -/
inductive Reason where
  | select
  | readIn
  | writeIn
  | readOut
  | writeOut
deriving DecidableEq

/-- The text that `QUIT(reason)` hands to `PRINT`. -/
def Reason.text : Reason → String
  | .select => "select"
  | .readIn => "read in"
  | .writeIn => "write in"
  | .readOut => "read out"
  | .writeOut => "write out"

/-- How a piece of the loop body ends: control goes on, or `goto quit`. -/
inductive Outcome where
  | cont (s : State)
  | quit (s : State) (why : Reason)

/-- The state an outcome carries. -/
def Outcome.state : Outcome → State
  | .cont s => s
  | .quit s _ => s

/-- Sequencing: the next statement runs unless the loop was left. -/
def Outcome.andThen (o : Outcome) (f : State → Outcome) : Outcome :=
  match o with
  | .cont s => f s
  | .quit s why => .quit s why

/-- The outcome with the global `quit` set to `q`. -/
def Outcome.withQuit (q : Int) : Outcome → Outcome
  | .cont s => .cont { s with quit := q }
  | .quit s why => .quit { s with quit := q } why

/-- Lines 230-237: the body of `if (FD_ISSET(in, &readfdset))`. -/
def relayInRead (s : State) (rd : ReadRes) (wr : WriteRes) : Outcome :=
  let s := { s with incnt := wrapInt (s.incnt + 1) }
  let s := { s with inr := rd.ret, inbuf := readInto s.inbuf rd.bytes,
                    inSrc := s.inSrc ++ rd.bytes }
  if s.inr < 1 then .quit s .readIn
  else
    let s := { s with inw := wr.ret, inDst := s.inDst ++ written s.inbuf 0 s.inr wr.ret }
    let s := if s.inw < 0 ∧ (wr.errno = EAGAIN ∨ wr.errno = EWOULDBLOCK)
             then { s with inw := 0 } else s
    if s.inw < 0 then .quit s .writeIn else .cont s

/-- Lines 240-245: the body of `if (FD_ISSET(master, &writefdset))`. -/
def relayInPending (s : State) (wr : WriteRes) : Outcome :=
  let left := s.inr - s.inw
  let w := wr.ret
  let s := { s with inDst := s.inDst ++ written s.inbuf s.inw left w }
  if w < 1 then .quit s .writeIn
  else .cont { s with inw := s.inw + w }

/-- Lines 248-255: the body of `if (FD_ISSET(master, &readfdset))`. -/
def relayOutRead (s : State) (rd : ReadRes) (wr : WriteRes) : Outcome :=
  let s := { s with outcnt := wrapInt (s.outcnt + 1) }
  let s := { s with outr := rd.ret, outbuf := readInto s.outbuf rd.bytes,
                    outSrc := s.outSrc ++ rd.bytes }
  if s.outr < 1 then .quit s .readOut
  else
    let s := { s with outw := wr.ret, outDst := s.outDst ++ written s.outbuf 0 s.outr wr.ret }
    let s := if s.outw < 0 ∧ (wr.errno = EAGAIN ∨ wr.errno = EWOULDBLOCK)
             then { s with outw := 0 } else s
    if s.outw < 0 then .quit s .writeOut else .cont s

/-- Lines 258-263: the body of `if (FD_ISSET(out, &writefdset))`. -/
def relayOutPending (s : State) (wr : WriteRes) : Outcome :=
  let left := s.outr - s.outw
  let w := wr.ret
  let s := { s with outDst := s.outDst ++ written s.outbuf s.outw left w }
  if w < 1 then .quit s .writeOut
  else .cont { s with outw := s.outw + w }

/-- Lines 205-223, read side: the set `readfdset` handed to `select`. -/
def readfdset (fds : Fds) (s : State) : FdSet :=
  let set := FD_ZERO
  let set := if s.inw = s.inr then FD_SET fds.in_ set else set
  if s.outw = s.outr then FD_SET fds.master set else set

/-- Lines 205-223, write side: the set `writefdset` handed to `select`. -/
def writefdset (fds : Fds) (s : State) : FdSet :=
  let set := FD_ZERO
  let set := if s.inw = s.inr then set else FD_SET fds.master set
  if s.outw = s.outr then set else FD_SET fds.out set

/-- What the operating system answers during one iteration of the loop. -/
structure Env where
  /-- Signals handed to `sighdlr` before `quit` is consulted. -/
  signals : List Int
  /-- Return value of `select`. -/
  selRet : Int
  /-- Descriptors ready for reading. -/
  rready : FdSet
  /-- Descriptors ready for writing. -/
  wready : FdSet
  /-- Result of `read(in, inbuf, sizeof(inbuf))`. -/
  readIn : ReadRes
  /-- Result of `write(master, inbuf, inr)`. -/
  writeIn : WriteRes
  /-- Result of `write(master, inbuf+inw, left)`. -/
  pendIn : WriteRes
  /-- Result of `read(master, outbuf, sizeof(outbuf))`. -/
  readOut : ReadRes
  /-- Result of `write(out, outbuf, outr)`. -/
  writeOut : WriteRes
  /-- Result of `write(out, outbuf+outw, left)`. -/
  pendOut : WriteRes

/-- Lines 229-264: the four guarded blocks that follow the `select`, run with
the descriptor sets as `select` left them. -/
def loopBody (fds : Fds) (rset wset : FdSet) (s : State) (e : Env) : Outcome :=
  (((if FD_ISSET fds.in_ rset then relayInRead s e.readIn e.writeIn else .cont s).andThen
    fun s => if FD_ISSET fds.master wset then relayInPending s e.pendIn else .cont s).andThen
    fun s => if FD_ISSET fds.master rset then relayOutRead s e.readOut e.writeOut
             else .cont s).andThen
    fun s => if FD_ISSET fds.out wset then relayOutPending s e.pendOut else .cont s

/-- Lines 205-264: one iteration of `for (;;)`. -/
def iteration (fds : Fds) (s : State) (e : Env) : Outcome :=
  let r := select (fds.master + 1) (readfdset fds s) (writefdset fds s)
             e.selRet e.rready e.wready
  if r.1 < 0 ∧ s.quit ≠ 0 then .quit s .select
  else loopBody fds r.2.1 r.2.2 s e

/-- Delivery of signals to the handler installed by `signal(SIGINT, sighdlr)`
and `signal(SIGTERM, sighdlr)`. -/
def deliver (sigs : List Int) (s : State) : State :=
  { s with quit := sigs.foldl (fun q sig => sighdlr sig q) s.quit }

/-- The loop `for (;;)` run against a finite list of environment answers, one
per iteration. The result is `cont s` when the answers are used up with the loop
still running (`s` is then the state at the start of the next iteration), and
`quit s why` when the loop was left. -/
def runLoop (fds : Fds) : State → List Env → Outcome
  | s, [] => .cont s
  | s, e :: es =>
    match iteration fds (deliver e.signals s) e with
    | .cont s1 => runLoop fds s1 es
    | .quit s1 why => .quit s1 why

/-- The variables as initialised at lines 124-138; the buffers are not
initialised by the program, their contents are parameters. -/
def init (inbuf outbuf : List Byte) : State :=
  { quit := 0, inr := 0, inw := 0, outr := 0, outw := 0,
    inbuf := inbuf, outbuf := outbuf, incnt := 0, outcnt := 0,
    inSrc := [], inDst := [], outSrc := [], outDst := [] }

/-! ## Shutdown (lines 266-285) -/

/-- The system calls of the shutdown sequence, in the order they are made. -/
inductive Act where
  | closeMaster
  | waitpidNohang
  | signalSigchld
  | selectTimeout
  | killChild
  | waitpidBlocking
  | restoreBlocking
deriving DecidableEq

/-- What the operating system answers during the shutdown sequence. -/
structure ShutEnv where
  /-- Return value of `waitpid(child, &status, WNOHANG)`: 0 while the child is
  running, the child's pid when it was reaped, -1 on failure. -/
  nohang : Int
  /-- The status stored by that call when it reaped the child. -/
  nohangStatus : Nat
  /-- Return value of `select(0, NULL, NULL, NULL, &tv)`: 0 when the five
  seconds elapsed, -1 when a handled signal interrupted the call. -/
  selRet : Int
  /-- Whether the child is still running when that `select` returns. -/
  childRunning : Bool
  /-- Return value of `waitpid(child, &status, 0)`: the child's pid, or -1. -/
  finalRet : Int
  /-- The status stored by that call when it reaped the child. -/
  finalStatus : Nat

/-- Lines 270-285: the calls made after `quit:` and the final value of
`status`; `status0` is the indeterminate value of the uninitialised variable. -/
def shutdown (status0 : Nat) (e : ShutEnv) : List Act × Nat :=
  if e.nohang = 0 then
    let kill := if e.selRet = 0 then [Act.killChild] else []
    ([.closeMaster, .waitpidNohang, .signalSigchld, .selectTimeout] ++ kill ++
      [.waitpidBlocking, .restoreBlocking],
      if 0 < e.finalRet then e.finalStatus else status0)
  else
    ([.closeMaster, .waitpidNohang, .restoreBlocking],
      if 0 < e.nohang then e.nohangStatus else status0)

/-! ## Exit code (lines 287-295) -/

/-- The macro `WTERMSIG` of `<sys/wait.h>` (glibc). -/
def WTERMSIG (status : Nat) : Nat := status &&& 0x7f

/-- The macro `WEXITSTATUS` of `<sys/wait.h>` (glibc). -/
def WEXITSTATUS (status : Nat) : Nat := (status &&& 0xff00) >>> 8

/-- The macro `WIFEXITED` of `<sys/wait.h>` (glibc). -/
def WIFEXITED (status : Nat) : Bool := WTERMSIG status == 0

/-- The macro `WIFSIGNALED` of `<sys/wait.h>` (glibc):
`((signed char) (((status) & 0x7f) + 1) >> 1) > 0`. -/
def WIFSIGNALED (status : Nat) : Bool :=
  decide (0 < WTERMSIG status ∧ WTERMSIG status < 0x7f)

/-- The macro `W_EXITCODE(ret, sig)` of `<sys/wait.h>` (glibc): the status the
kernel stores for a child that called `exit(ret)` (with `sig = 0`) or that was
killed by signal `sig`. -/
def W_EXITCODE (ret sig : Nat) : Nat := ret <<< 8 ||| sig

/-- The exit code a parent observes after `exit(n)`. -/
def exitCode (n : Nat) : Nat := n % 256

/-- A line written to the error stream. -/
inductive Msg where
  /-- The macro `PRINT(reason)`; the text of `strerror(errno)` is left out. -/
  | print (reason : String)
  | childExited (code : Nat)
  | childSignaled (sig : Nat)
deriving DecidableEq

/-- Lines 287-295: the exit code of the runner and what it writes to the error
stream, from the collected `status`. -/
def report (status : Nat) : Nat × List Msg :=
  if WIFEXITED status then
    (exitCode (WEXITSTATUS status), [.childExited (WEXITSTATUS status)])
  else
    (exitCode 1, if WIFSIGNALED status then [.childSignaled (WTERMSIG status)] else [])

/-! ## The program -/

/-- What the operating system answers before the relay loop starts. -/
structure Boot where
  argc : Int
  /-- The value `fileno(stdin)`. -/
  in_ : Int
  /-- The value `fileno(stdout)`. -/
  out : Int
  posix_openpt : Int
  grantpt : Int
  unlockpt : Int
  ptsname : Option String
  fork : Int
  /-- In the child: return value of `setsid`. -/
  setsid : Int
  /-- In the child: return value of `open(slavepath, O_RDWR)`. -/
  openSlave : Int
  /-- In the child: return value of `ioctl(slave, TIOCSCTTY, NULL)`. -/
  tiocsctty : Int
  /-- In the child: whether `execvp` returned, which it does only on failure. -/
  execReturned : Bool
  /-- Indeterminate contents of `inbuf`, `outbuf` and `status`. -/
  inbuf : List Byte
  outbuf : List Byte
  status0 : Nat

/-- How a run of `main` ends. -/
inductive Proc where
  /-- The process exited with `code`, having written `err` to the error stream
  and `out` to the output stream. -/
  | exited (code : Nat) (err : List Msg) (out : List Byte)
  /-- The child replaced its image through `execvp`. -/
  | execd
  /-- The relay loop was still running when the answers were used up. -/
  | relaying (s : State)

/-- Lines 165-192: the child after `fork`. -/
def childMain (b : Boot) (slave : Int) : Proc :=
  if b.setsid < 0 then .exited (exitCode 1) [.print "child failed to setsid()"] []
  else if slave < 0 ∧ b.openSlave < 0 then
    .exited (exitCode 1) [.print "open slave pty in child failed"] []
  else if b.tiocsctty < 0 then .exited (exitCode 1) [.print "TIOCSCTTY failed in child"] []
  else if b.execReturned then .exited (exitCode 1) [.print "exec in child failed"] []
  else .execd

/-- The function `main` (built without `DEBUG`), run against the answers of the
operating system: `b` before the loop, `evs` during it, `sd` after it. -/
def main (b : Boot) (evs : List Env) (sd : ShutEnv) : Proc :=
  if b.argc < 2 then .exited (exitCode 1) [] []
  else
    match openmaster b.posix_openpt b.grantpt b.unlockpt b.ptsname with
    | none => .exited (exitCode 1) [.print "failed to open pty"] []
    | some (_, master, slave) =>
      if b.fork < 0 then .exited (exitCode 1) [.print "fork failed"] []
      else if b.fork = 0 then childMain b slave
      else
        match runLoop ⟨b.in_, b.out, master⟩ (init b.inbuf b.outbuf) evs with
        | .cont s => .relaying s
        | .quit s why =>
          let r := report (shutdown b.status0 sd).2
          .exited r.1 (.print why.text :: r.2) s.outDst

/-! ## Predicates used in the statements -/

/-- The read side of the input direction is the same in `s1` as in `s`: no
`read(in, ...)` happened in between. -/
def SameInRead (s s1 : State) : Prop :=
  s1.inr = s.inr ∧ s1.inbuf = s.inbuf ∧ s1.incnt = s.incnt ∧ s1.inSrc = s.inSrc

/-- The read side of the output direction is the same in `s1` as in `s`. -/
def SameOutRead (s s1 : State) : Prop :=
  s1.outr = s.outr ∧ s1.outbuf = s.outbuf ∧ s1.outcnt = s.outcnt ∧ s1.outSrc = s.outSrc

/-- The whole input direction is the same in `s1` as in `s`. -/
def SameIn (s s1 : State) : Prop :=
  SameInRead s s1 ∧ s1.inw = s.inw ∧ s1.inDst = s.inDst

/-- The whole output direction is the same in `s1` as in `s`. -/
def SameOut (s s1 : State) : Prop :=
  SameOutRead s s1 ∧ s1.outw = s.outw ∧ s1.outDst = s.outDst

/-- The input direction is in order: offsets in range, and the bytes accepted by
the master followed by the unflushed bytes are the bytes read from `in`. -/
def InOK (cap : Nat) (s : State) : Prop :=
  0 ≤ s.inw ∧ s.inw ≤ s.inr ∧ s.inr ≤ cap ∧
  s.inDst ++ slice s.inbuf s.inw s.inr = s.inSrc

/-- The output direction is in order. -/
def OutOK (cap : Nat) (s : State) : Prop :=
  0 ≤ s.outw ∧ s.outw ≤ s.outr ∧ s.outr ≤ cap ∧
  s.outDst ++ slice s.outbuf s.outw s.outr = s.outSrc

/-- Delivered bytes followed by unflushed bytes are the received bytes, input
direction. -/
def InStream (s : State) : Prop :=
  s.inDst ++ slice s.inbuf s.inw s.inr = s.inSrc

/-- Delivered bytes followed by unflushed bytes are the received bytes, output
direction. -/
def OutStream (s : State) : Prop :=
  s.outDst ++ slice s.outbuf s.outw s.outr = s.outSrc

/-- The outcome satisfies `P` if control goes on and `Q` if the loop is left. -/
def Outcome.sat (o : Outcome) (P Q : State → Prop) : Prop :=
  match o with
  | .cont s => P s
  | .quit s _ => Q s

/-- With an outcome concretely given, the property it has to satisfy can be
evaluated. -/
instance Outcome.decidableSat (o : Outcome) (P Q : State → Prop)
    [DecidablePred P] [DecidablePred Q] : Decidable (o.sat P Q) :=
  match o with
  | .cont s => inferInstanceAs (Decidable (P s))
  | .quit s _ => inferInstanceAs (Decidable (Q s))

/-- The offsets of the input direction are in range. -/
def InBounds (cap : Nat) (s : State) : Prop :=
  0 ≤ s.inw ∧ s.inw ≤ s.inr ∧ s.inr ≤ cap

/-- The offsets of the output direction are in range. -/
def OutBounds (cap : Nat) (s : State) : Prop :=
  0 ≤ s.outw ∧ s.outw ≤ s.outr ∧ s.outr ≤ cap

/-- Line 229 with its body: the first guarded block of the loop body. -/
def inReadStep (fds : Fds) (rset : FdSet) (e : Env) (s : State) : Outcome :=
  if FD_ISSET fds.in_ rset then relayInRead s e.readIn e.writeIn else .cont s

/-- Line 239 with its body: the second guarded block of the loop body. -/
def inPendingStep (fds : Fds) (wset : FdSet) (e : Env) (s : State) : Outcome :=
  if FD_ISSET fds.master wset then relayInPending s e.pendIn else .cont s

/-- Line 247 with its body: the third guarded block of the loop body. -/
def outReadStep (fds : Fds) (rset : FdSet) (e : Env) (s : State) : Outcome :=
  if FD_ISSET fds.master rset then relayOutRead s e.readOut e.writeOut else .cont s

/-- Line 257 with its body: the fourth guarded block of the loop body. -/
def outPendingStep (fds : Fds) (wset : FdSet) (e : Env) (s : State) : Outcome :=
  if FD_ISSET fds.out wset then relayOutPending s e.pendOut else .cont s

/-- The contract of a `read` into a buffer of `cap` bytes and of the
opportunistic write that follows it: the `read` returns at most `cap`, and the
write, made when the `read` returned a positive count, returns at most that
count. -/
def ReadOK (cap : Nat) (rd : ReadRes) (wr : WriteRes) : Prop :=
  rd.bytes.length ≤ cap ∧ (1 ≤ rd.ret → wr.ret ≤ rd.ret)

/-- Every `read` and `write` that one pass through the loop body makes returns
at most the count it was asked for. Each call is judged where it is made: the
write of a remainder against `left` as computed at lines 240 and 258, from the
offsets as they are at that point of the body. A call that is not made is not
constrained. -/
def CallsOK (cap : Nat) (fds : Fds) (rset wset : FdSet) (s : State) (e : Env) : Prop :=
  (FD_ISSET fds.in_ rset = true → ReadOK cap e.readIn e.writeIn) ∧
  (inReadStep fds rset e s).sat
    (fun s1 =>
      (FD_ISSET fds.master wset = true → e.pendIn.ret ≤ s1.inr - s1.inw) ∧
      (inPendingStep fds wset e s1).sat
        (fun s2 =>
          (FD_ISSET fds.master rset = true → ReadOK cap e.readOut e.writeOut) ∧
          (outReadStep fds rset e s2).sat
            (fun s3 => FD_ISSET fds.out wset = true → e.pendOut.ret ≤ s3.outr - s3.outw)
            (fun _ => True))
        (fun _ => True))
    (fun _ => True)

/-- The answers of the operating system during one iteration respect the
contracts of `read` and `write`: unless the loop is left at the wait step, the
calls of the loop body, run with the sets as `select` left them, return at most
the counts they were asked for. -/
def Answers (cap : Nat) (fds : Fds) (s : State) (e : Env) : Prop :=
  ¬ ((select (fds.master + 1) (readfdset fds s) (writefdset fds s)
        e.selRet e.rready e.wready).1 < 0 ∧ s.quit ≠ 0) →
    CallsOK cap fds
      (select (fds.master + 1) (readfdset fds s) (writefdset fds s)
        e.selRet e.rready e.wready).2.1
      (select (fds.master + 1) (readfdset fds s) (writefdset fds s)
        e.selRet e.rready e.wready).2.2 s e

/-- Every iteration of the run receives answers that respect the contracts. -/
def Conforms (cap : Nat) (fds : Fds) : State → List Env → Prop
  | _, [] => True
  | s, e :: es =>
    Answers cap fds (deliver e.signals s) e ∧
      match iteration fds (deliver e.signals s) e with
      | .cont s1 => Conforms cap fds s1 es
      | .quit _ _ => True

/-- No `QUIT` of the four blocks carries the reason of the wait step. -/
def Outcome.notSelect (o : Outcome) : Prop := ∀ s, o ≠ .quit s .select

/-! ## Concrete environments used to exercise the statements -/

/-- An operating system that answers a start with no program name. -/
def bootNoProgram : Boot :=
  { argc := 1, in_ := 0, out := 1, posix_openpt := 3, grantpt := 0, unlockpt := 0,
    ptsname := some "/dev/pts/7", fork := 100, setsid := 0, openSlave := 4, tiocsctty := 0,
    execReturned := false, inbuf := [], outbuf := [], status0 := 0 }

/-- An operating system that answers a start with a program name: the pty
master is descriptor 3 and the child is process 100. -/
def bootProgram : Boot :=
  { argc := 2, in_ := 0, out := 1, posix_openpt := 3, grantpt := 0, unlockpt := 0,
    ptsname := some "/dev/pts/7", fork := 100, setsid := 0, openSlave := 4, tiocsctty := 0,
    execReturned := false, inbuf := [0, 0, 0, 0], outbuf := [0, 0, 0, 0], status0 := 0 }

/-- An iteration in which an interrupt request arrives and cuts `select` short. -/
def envInterrupted : Env :=
  { signals := [SIGINT], selRet := -1, rready := [], wready := [],
    readIn := .fail 4, writeIn := ⟨-1, 4⟩, pendIn := ⟨-1, 4⟩,
    readOut := .fail 4, writeOut := ⟨-1, 4⟩, pendOut := ⟨-1, 4⟩ }

/-- A shutdown in which the child has already exited with code 17. -/
def shutReaped : ShutEnv :=
  { nohang := 100, nohangStatus := W_EXITCODE 17 0, selRet := 0, childRunning := false,
    finalRet := -1, finalStatus := 0 }

/-- A shutdown in which the child is still running and the five-second wait
is cut short by a second interrupt request. -/
def shutInterrupted : ShutEnv :=
  { nohang := 0, nohangStatus := 0, selRet := -1, childRunning := true,
    finalRet := 100, finalStatus := 9 }

/-- Descriptors 0, 1 and 3 on three distinct open file descriptions (two pipes
and the pty master), each opened read-write and blocking. -/
def tablePipes : FdTable :=
  { desc := fun fd => fd.toNat, flags := fun _ => 2 }

/-- A state in which both directions hold unflushed bytes. -/
def statePending : State :=
  { quit := 0, inr := 3, inw := 1, outr := 2, outw := 0,
    inbuf := [10, 11, 12, 0], outbuf := [20, 21, 0, 0], incnt := 1, outcnt := 1,
    inSrc := [10, 11, 12], inDst := [10], outSrc := [20, 21], outDst := [] }

/-- Descriptors as in a start with the three standard streams open. -/
def fdsUsual : Fds := { in_ := 0, out := 1, master := 3 }

/-- An iteration in which nothing is ready and no signal arrives. -/
def envIdle : Env :=
  { signals := [], selRet := 0, rready := [], wready := [],
    readIn := .fail 11, writeIn := ⟨-1, 11⟩, pendIn := ⟨-1, 11⟩,
    readOut := .fail 11, writeOut := ⟨-1, 11⟩, pendOut := ⟨-1, 11⟩ }

/-- An iteration in which three bytes arrive on standard input and the master
accepts the first of them at once. -/
def envReadThree : Env :=
  { signals := [], selRet := 1, rready := [0], wready := [],
    readIn := .data [1, 2, 3], writeIn := ⟨1, 0⟩, pendIn := ⟨-1, EAGAIN⟩,
    readOut := .fail EAGAIN, writeOut := ⟨-1, EAGAIN⟩, pendOut := ⟨-1, EAGAIN⟩ }

/-- An iteration in which the master is writable and accepts one more byte. -/
def envFlushOne : Env :=
  { signals := [], selRet := 1, rready := [], wready := [3],
    readIn := .fail EAGAIN, writeIn := ⟨-1, EAGAIN⟩, pendIn := ⟨1, 0⟩,
    readOut := .fail EAGAIN, writeOut := ⟨-1, EAGAIN⟩, pendOut := ⟨-1, EAGAIN⟩ }

/-- Descriptors of a runner started with descriptor 0 closed: `posix_openpt`
returns the lowest free descriptor, 0, which is also `fileno(stdin)`. -/
def fdsStdinClosed : Fds := { in_ := 0, out := 1, master := 0 }

/-- An iteration in which descriptor 0 is readable: three bytes are read into
`inbuf` and one is written at once; one byte is read into `outbuf` and written
at once. -/
def envBothRead : Env :=
  { signals := [], selRet := 1, rready := [0], wready := [],
    readIn := .data [1, 2, 3], writeIn := ⟨1, 0⟩, pendIn := ⟨-1, EAGAIN⟩,
    readOut := .data [9], writeOut := ⟨1, 0⟩, pendOut := ⟨-1, EAGAIN⟩ }

/-- An iteration in which descriptor 0 is readable again: one byte is read into
`inbuf` and written at once; one byte is read into `outbuf` and written at
once. -/
def envReadSeven : Env :=
  { signals := [], selRet := 1, rready := [0], wready := [],
    readIn := .data [7], writeIn := ⟨1, 0⟩, pendIn := ⟨-1, EAGAIN⟩,
    readOut := .data [9], writeOut := ⟨1, 0⟩, pendOut := ⟨-1, EAGAIN⟩ }

theorem written_nonpos (buf : List Byte) (off count ret : Int) (h : ret ≤ 0) :
    written buf off count ret = [] := by
  have : ret.toNat = 0 := by omega
  simp [written, this]

theorem slice_nil (buf : List Byte) (lo hi : Int) (h : hi ≤ lo) : slice buf lo hi = [] := by
  unfold slice
  rw [List.drop_eq_nil_iff]
  have : hi.toNat ≤ lo.toNat := by omega
  simp only [List.length_take]
  omega

theorem slice_split (buf : List Byte) (a b c : Int) (hab : a ≤ b) (hbc : b ≤ c) :
    slice buf a b ++ slice buf b c = slice buf a c := by
  unfold slice
  have h1 : a.toNat ≤ b.toNat := by omega
  have h2 : b.toNat ≤ c.toNat := by omega
  generalize a.toNat = i at *
  generalize b.toNat = j at *
  generalize c.toNat = k at *
  have e1 : List.take j buf = List.take j (List.take k buf) := by
    rw [List.take_take, Nat.min_eq_left h2]
  rw [e1]
  generalize List.take k buf = l
  have e2 : List.drop i l = List.drop i (List.take j l ++ List.drop j l) := by
    rw [List.take_append_drop]
  rw [e2, List.drop_append_eq_append_drop]
  congr 1
  have : i - (List.take j l).length = 0 ∨ l.length ≤ j := by
    simp only [List.length_take]
    omega
  rcases this with h | h
  · rw [h]; rfl
  · rw [List.drop_eq_nil_iff.mpr h]; simp

theorem written_eq_slice (buf : List Byte) (off count ret : Int) (h0 : 0 ≤ off) (h1 : 0 ≤ ret)
    (h2 : ret ≤ count) : written buf off count ret = slice buf off (off + ret) := by
  unfold written slice
  rw [List.take_drop, List.take_take]
  congr 2
  omega

theorem slice_readInto (buf data : List Byte) (w : Int) :
    slice (readInto buf data) w data.length = data.drop w.toNat := by
  unfold slice readInto
  simp

theorem written_readInto (buf data : List Byte) (w : Int) :
    written (readInto buf data) 0 data.length w = data.take w.toNat := by
  unfold written
  have := slice_readInto buf data 0
  simp only [zero_add]
  rw [this]
  simp

/-! ### What each block leaves untouched -/

theorem sameInRead_trans (a b c : State) (h1 : SameInRead a b) (h2 : SameInRead b c) :
    SameInRead a c := by
  obtain ⟨x1, x2, x3, x4⟩ := h1
  obtain ⟨y1, y2, y3, y4⟩ := h2
  exact ⟨y1.trans x1, y2.trans x2, y3.trans x3, y4.trans x4⟩

theorem sameOutRead_trans (a b c : State) (h1 : SameOutRead a b) (h2 : SameOutRead b c) :
    SameOutRead a c := by
  obtain ⟨x1, x2, x3, x4⟩ := h1
  obtain ⟨y1, y2, y3, y4⟩ := h2
  exact ⟨y1.trans x1, y2.trans x2, y3.trans x3, y4.trans x4⟩

theorem sameIn_trans (a b c : State) (h1 : SameIn a b) (h2 : SameIn b c) : SameIn a c := by
  obtain ⟨x1, x2, x3⟩ := h1
  obtain ⟨y1, y2, y3⟩ := h2
  exact ⟨sameInRead_trans a b c x1 y1, y2.trans x2, y3.trans x3⟩

theorem sameOut_trans (a b c : State) (h1 : SameOut a b) (h2 : SameOut b c) : SameOut a c := by
  obtain ⟨x1, x2, x3⟩ := h1
  obtain ⟨y1, y2, y3⟩ := h2
  exact ⟨sameOutRead_trans a b c x1 y1, y2.trans x2, y3.trans x3⟩

theorem sameIn_refl (s : State) : SameIn s s := ⟨⟨rfl, rfl, rfl, rfl⟩, rfl, rfl⟩

theorem sameOut_refl (s : State) : SameOut s s := ⟨⟨rfl, rfl, rfl, rfl⟩, rfl, rfl⟩

theorem sameOut_relayInRead (s : State) (rd : ReadRes) (wr : WriteRes) :
    SameOut s (relayInRead s rd wr).state := by
  simp only [relayInRead]
  split_ifs <;> exact sameOut_refl s

theorem sameOut_relayInPending (s : State) (wr : WriteRes) :
    SameOut s (relayInPending s wr).state := by
  simp only [relayInPending]
  split_ifs <;> exact sameOut_refl s

theorem sameIn_relayOutRead (s : State) (rd : ReadRes) (wr : WriteRes) :
    SameIn s (relayOutRead s rd wr).state := by
  simp only [relayOutRead]
  split_ifs <;> exact sameIn_refl s

theorem sameIn_relayOutPending (s : State) (wr : WriteRes) :
    SameIn s (relayOutPending s wr).state := by
  simp only [relayOutPending]
  split_ifs <;> exact sameIn_refl s

theorem mem_readfdset (fds : Fds) (s : State) (fd : Int) :
    fd ∈ readfdset fds s ↔
      (fd = fds.master ∧ s.outw = s.outr) ∨ (fd = fds.in_ ∧ s.inw = s.inr) := by
  unfold readfdset FD_SET FD_ZERO
  split_ifs <;> simp_all

theorem select_subset (nfds : Int) (r w : FdSet) (ret : Int) (rready wready : FdSet) :
    (∀ fd, fd ∈ (select nfds r w ret rready wready).2.1 → fd ∈ r) ∧
    (∀ fd, fd ∈ (select nfds r w ret rready wready).2.2 → fd ∈ w) := by
  unfold select
  split_ifs
  · exact ⟨fun _ h => h, fun _ h => h⟩
  · exact ⟨fun _ h => (List.mem_filter.mp h).1, fun _ h => (List.mem_filter.mp h).1⟩

theorem sat_andThen (o : Outcome) (f : State → Outcome) (P Q P1 : State → Prop)
    (ho : o.sat P Q) (hf : ∀ s, P s → (f s).sat P1 Q) : (o.andThen f).sat P1 Q := by
  cases o with
  | cont s => exact hf s ho
  | quit s why => exact ho

theorem sat_mono (o : Outcome) (P Q P1 Q1 : State → Prop) (ho : o.sat P Q)
    (hP : ∀ s, P s → P1 s) (hQ : ∀ s, Q s → Q1 s) : o.sat P1 Q1 := by
  cases o with
  | cont s => exact hP s ho
  | quit s why => exact hQ s ho

theorem sat_state (o : Outcome) (P Q R : State → Prop) (ho : o.sat P Q) (hR : R o.state) :
    o.sat (fun s => P s ∧ R s) (fun s => Q s ∧ R s) := by
  cases o with
  | cont s => exact ⟨ho, hR⟩
  | quit s why => exact ⟨ho, hR⟩

theorem andThen_cont (o : Outcome) : (o.andThen fun s => .cont s) = o := by
  cases o <;> rfl

theorem andThen_assoc (o : Outcome) (f g : State → Outcome) :
    (o.andThen f).andThen g = o.andThen fun s => (f s).andThen g := by
  cases o <;> rfl

theorem readRes_cases (rd : ReadRes) :
    (rd.ret < 1 ∧ rd.bytes = []) ∨ (1 ≤ rd.ret ∧ rd.ret = rd.bytes.length) := by
  cases rd with
  | data bytes =>
    cases bytes with
    | nil => exact Or.inl ⟨by simp [ReadRes.ret], rfl⟩
    | cons b bs => exact Or.inr ⟨by simp [ReadRes.ret], rfl⟩
  | fail errno => exact Or.inl ⟨by simp [ReadRes.ret], rfl⟩

theorem readInto_nil (buf : List Byte) : readInto buf [] = buf := by
  simp [readInto]

theorem relayInRead_ok (cap : Nat) (s : State) (rd : ReadRes) (wr : WriteRes)
    (h : InOK cap s) (hdr : s.inw = s.inr) (hlen : rd.bytes.length ≤ cap)
    (hwr : 1 ≤ rd.ret → wr.ret ≤ rd.ret) :
    (relayInRead s rd wr).sat (InOK cap) InStream := by
  obtain ⟨h0, _, _, hst⟩ := h
  have hsrc : s.inDst = s.inSrc := by
    rw [← hst, slice_nil _ _ _ (le_of_eq hdr.symm), List.append_nil]
  rcases readRes_cases rd with ⟨hlt, hb⟩ | ⟨hge, hret⟩
  · simp only [relayInRead, if_pos hlt, Outcome.sat, InStream, hb, readInto_nil,
      List.append_nil]
    rw [slice_nil _ _ _ (by omega), List.append_nil]
    exact hsrc
  · have hnlt : ¬ rd.ret < 1 := by omega
    have hwle := hwr hge
    have hw : written (readInto s.inbuf rd.bytes) 0 rd.ret wr.ret
        = rd.bytes.take wr.ret.toNat := by
      rw [hret]; exact written_readInto _ _ _
    have hsl : ∀ w : Int, slice (readInto s.inbuf rd.bytes) w rd.ret
        = rd.bytes.drop w.toNat := by
      intro w; rw [hret]; exact slice_readInto _ _ _
    have hjoin : ∀ w : Int, w.toNat = wr.ret.toNat →
        (s.inDst ++ rd.bytes.take wr.ret.toNat) ++ rd.bytes.drop w.toNat
          = s.inSrc ++ rd.bytes := by
      intro w hw1
      rw [hw1, List.append_assoc, List.take_append_drop, hsrc]
    simp only [relayInRead, if_neg hnlt]
    split_ifs with c1 c2 c3
    · exact absurd c2 (by simp)
    · simp only [Outcome.sat, InOK, hw, hsl]
      refine ⟨le_refl _, by omega, by omega, hjoin 0 ?_⟩
      have := c1.1
      simp only at this
      omega
    · simp only [Outcome.sat, InStream, hw, hsl]
      exact hjoin _ rfl
    · simp only [Outcome.sat, InOK, hw, hsl]
      simp only [not_lt] at c3
      exact ⟨c3, hwle, by omega, hjoin _ rfl⟩

theorem relayInPending_ok (cap : Nat) (s : State) (wr : WriteRes)
    (h : InOK cap s) (hwr : wr.ret ≤ s.inr - s.inw) :
    (relayInPending s wr).sat (InOK cap) InStream := by
  obtain ⟨h0, h1, h2, hst⟩ := h
  simp only [relayInPending]
  split_ifs with c
  · simp only [Outcome.sat, InStream, written_nonpos _ _ _ _ (show wr.ret ≤ 0 by omega),
      List.append_nil]
    exact hst
  · simp only [Outcome.sat, InOK]
    refine ⟨by omega, by omega, h2, ?_⟩
    rw [written_eq_slice _ _ _ _ h0 (by omega) hwr, List.append_assoc,
      slice_split _ _ _ _ (by omega) (by omega)]
    exact hst

theorem relayOutRead_ok (cap : Nat) (s : State) (rd : ReadRes) (wr : WriteRes)
    (h : OutOK cap s) (hdr : s.outw = s.outr) (hlen : rd.bytes.length ≤ cap)
    (hwr : 1 ≤ rd.ret → wr.ret ≤ rd.ret) :
    (relayOutRead s rd wr).sat (OutOK cap) OutStream := by
  obtain ⟨h0, _, _, hst⟩ := h
  have hsrc : s.outDst = s.outSrc := by
    rw [← hst, slice_nil _ _ _ (le_of_eq hdr.symm), List.append_nil]
  rcases readRes_cases rd with ⟨hlt, hb⟩ | ⟨hge, hret⟩
  · simp only [relayOutRead, if_pos hlt, Outcome.sat, OutStream, hb, readInto_nil,
      List.append_nil]
    rw [slice_nil _ _ _ (by omega), List.append_nil]
    exact hsrc
  · have hnlt : ¬ rd.ret < 1 := by omega
    have hwle := hwr hge
    have hw : written (readInto s.outbuf rd.bytes) 0 rd.ret wr.ret
        = rd.bytes.take wr.ret.toNat := by
      rw [hret]; exact written_readInto _ _ _
    have hsl : ∀ w : Int, slice (readInto s.outbuf rd.bytes) w rd.ret
        = rd.bytes.drop w.toNat := by
      intro w; rw [hret]; exact slice_readInto _ _ _
    have hjoin : ∀ w : Int, w.toNat = wr.ret.toNat →
        (s.outDst ++ rd.bytes.take wr.ret.toNat) ++ rd.bytes.drop w.toNat
          = s.outSrc ++ rd.bytes := by
      intro w hw1
      rw [hw1, List.append_assoc, List.take_append_drop, hsrc]
    simp only [relayOutRead, if_neg hnlt]
    split_ifs with c1 c2 c3
    · exact absurd c2 (by simp)
    · simp only [Outcome.sat, OutOK, hw, hsl]
      refine ⟨le_refl _, by omega, by omega, hjoin 0 ?_⟩
      have := c1.1
      simp only at this
      omega
    · simp only [Outcome.sat, OutStream, hw, hsl]
      exact hjoin _ rfl
    · simp only [Outcome.sat, OutOK, hw, hsl]
      simp only [not_lt] at c3
      exact ⟨c3, hwle, by omega, hjoin _ rfl⟩

theorem relayOutPending_ok (cap : Nat) (s : State) (wr : WriteRes)
    (h : OutOK cap s) (hwr : wr.ret ≤ s.outr - s.outw) :
    (relayOutPending s wr).sat (OutOK cap) OutStream := by
  obtain ⟨h0, h1, h2, hst⟩ := h
  simp only [relayOutPending]
  split_ifs with c
  · simp only [Outcome.sat, OutStream, written_nonpos _ _ _ _ (show wr.ret ≤ 0 by omega),
      List.append_nil]
    exact hst
  · simp only [Outcome.sat, OutOK]
    refine ⟨by omega, by omega, h2, ?_⟩
    rw [written_eq_slice _ _ _ _ h0 (by omega) hwr, List.append_assoc,
      slice_split _ _ _ _ (by omega) (by omega)]
    exact hst

theorem inOK_of_sameIn (cap : Nat) (s s1 : State) (h : InOK cap s) (hs : SameIn s s1) :
    InOK cap s1 := by
  obtain ⟨⟨e1, e2, _, e4⟩, e5, e6⟩ := hs
  unfold InOK
  rw [e1, e2, e4, e5, e6]
  exact h

theorem inStream_of_sameIn (s s1 : State) (h : InStream s) (hs : SameIn s s1) :
    InStream s1 := by
  obtain ⟨⟨e1, e2, _, e4⟩, e5, e6⟩ := hs
  unfold InStream
  rw [e1, e2, e4, e5, e6]
  exact h

theorem outOK_of_sameOut (cap : Nat) (s s1 : State) (h : OutOK cap s) (hs : SameOut s s1) :
    OutOK cap s1 := by
  obtain ⟨⟨e1, e2, _, e4⟩, e5, e6⟩ := hs
  unfold OutOK
  rw [e1, e2, e4, e5, e6]
  exact h

theorem outStream_of_sameOut (s s1 : State) (h : OutStream s) (hs : SameOut s s1) :
    OutStream s1 := by
  obtain ⟨⟨e1, e2, _, e4⟩, e5, e6⟩ := hs
  unfold OutStream
  rw [e1, e2, e4, e5, e6]
  exact h

theorem inBounds_of_sameIn (cap : Nat) (s s1 : State) (h : InBounds cap s) (hs : SameIn s s1) :
    InBounds cap s1 := by
  obtain ⟨⟨e1, _, _, _⟩, e5, _⟩ := hs
  unfold InBounds
  rw [e1, e5]
  exact h

theorem outBounds_of_sameOut (cap : Nat) (s s1 : State) (h : OutBounds cap s)
    (hs : SameOut s s1) : OutBounds cap s1 := by
  obtain ⟨⟨e1, _, _, _⟩, e5, _⟩ := hs
  unfold OutBounds
  rw [e1, e5]
  exact h

theorem relayInRead_bounds (cap : Nat) (s : State) (rd : ReadRes) (wr : WriteRes)
    (h : ReadOK cap rd wr) :
    (relayInRead s rd wr).sat (InBounds cap) (fun _ => True) := by
  obtain ⟨hlen, hwr⟩ := h
  rcases readRes_cases rd with ⟨hlt, _⟩ | ⟨hge, hret⟩
  · simp only [relayInRead, if_pos hlt, Outcome.sat]
  · have hnlt : ¬ rd.ret < 1 := by omega
    have hwle := hwr hge
    simp only [relayInRead, if_neg hnlt]
    split_ifs with c1 c2 c3
    · exact absurd c2 (by simp)
    · simp only [Outcome.sat, InBounds]
      exact ⟨le_refl _, by omega, by omega⟩
    · simp only [Outcome.sat]
    · simp only [Outcome.sat, InBounds]
      simp only [not_lt] at c3
      exact ⟨c3, hwle, by omega⟩

theorem relayInPending_bounds (cap : Nat) (s : State) (wr : WriteRes)
    (h : InBounds cap s) (hwr : wr.ret ≤ s.inr - s.inw) :
    (relayInPending s wr).sat (InBounds cap) (fun _ => True) := by
  obtain ⟨h0, h1, h2⟩ := h
  simp only [relayInPending]
  split_ifs with c
  · simp only [Outcome.sat]
  · simp only [Outcome.sat, InBounds]
    exact ⟨by omega, by omega, h2⟩

theorem relayOutRead_bounds (cap : Nat) (s : State) (rd : ReadRes) (wr : WriteRes)
    (h : ReadOK cap rd wr) :
    (relayOutRead s rd wr).sat (OutBounds cap) (fun _ => True) := by
  obtain ⟨hlen, hwr⟩ := h
  rcases readRes_cases rd with ⟨hlt, _⟩ | ⟨hge, hret⟩
  · simp only [relayOutRead, if_pos hlt, Outcome.sat]
  · have hnlt : ¬ rd.ret < 1 := by omega
    have hwle := hwr hge
    simp only [relayOutRead, if_neg hnlt]
    split_ifs with c1 c2 c3
    · exact absurd c2 (by simp)
    · simp only [Outcome.sat, OutBounds]
      exact ⟨le_refl _, by omega, by omega⟩
    · simp only [Outcome.sat]
    · simp only [Outcome.sat, OutBounds]
      simp only [not_lt] at c3
      exact ⟨c3, hwle, by omega⟩

theorem relayOutPending_bounds (cap : Nat) (s : State) (wr : WriteRes)
    (h : OutBounds cap s) (hwr : wr.ret ≤ s.outr - s.outw) :
    (relayOutPending s wr).sat (OutBounds cap) (fun _ => True) := by
  obtain ⟨h0, h1, h2⟩ := h
  simp only [relayOutPending]
  split_ifs with c
  · simp only [Outcome.sat]
  · simp only [Outcome.sat, OutBounds]
    exact ⟨by omega, by omega, h2⟩

theorem sat_andThen_calls (o : Outcome) (f : State → Outcome) (P C P1 Q : State → Prop)
    (ho : o.sat P Q) (hc : o.sat C (fun _ => True))
    (hf : ∀ s, P s → C s → (f s).sat P1 Q) : (o.andThen f).sat P1 Q := by
  cases o with
  | cont s => exact hf s ho hc
  | quit s why => exact ho

theorem loopBody_eq (fds : Fds) (rset wset : FdSet) (s : State) (e : Env) :
    loopBody fds rset wset s e =
      (inReadStep fds rset e s).andThen fun s1 =>
        (inPendingStep fds wset e s1).andThen fun s2 =>
          (outReadStep fds rset e s2).andThen (outPendingStep fds wset e) := by
  unfold loopBody
  rw [andThen_assoc, andThen_assoc]
  rfl

/-- The loop body, block by block: each block is entered with the property the
block before it established and with the contract of the calls it makes. -/
theorem loopBody_stages (cap : Nat) (fds : Fds) (rset wset : FdSet) (s : State) (e : Env)
    (P1 P2 P3 P4 Q : State → Prop)
    (hA : (FD_ISSET fds.in_ rset = true → ReadOK cap e.readIn e.writeIn) →
      (inReadStep fds rset e s).sat P1 Q)
    (hB : ∀ s1, P1 s1 →
      (FD_ISSET fds.master wset = true → e.pendIn.ret ≤ s1.inr - s1.inw) →
      (inPendingStep fds wset e s1).sat P2 Q)
    (hC : ∀ s2, P2 s2 →
      (FD_ISSET fds.master rset = true → ReadOK cap e.readOut e.writeOut) →
      (outReadStep fds rset e s2).sat P3 Q)
    (hD : ∀ s3, P3 s3 →
      (FD_ISSET fds.out wset = true → e.pendOut.ret ≤ s3.outr - s3.outw) →
      (outPendingStep fds wset e s3).sat P4 Q)
    (hc : CallsOK cap fds rset wset s e) :
    (loopBody fds rset wset s e).sat P4 Q := by
  obtain ⟨cA, cRest⟩ := hc
  rw [loopBody_eq]
  refine sat_andThen_calls _ _ P1 _ P4 Q (hA cA) cRest ?_
  rintro s1 p1 ⟨cB, cRest2⟩
  refine sat_andThen_calls _ _ P2 _ P4 Q (hB s1 p1 cB) cRest2 ?_
  rintro s2 p2 ⟨cC, cRest3⟩
  refine sat_andThen_calls _ _ P3 _ P4 Q (hC s2 p2 cC) cRest3 ?_
  intro s3 p3 cD
  exact hD s3 p3 cD

/-- One pass through the loop body keeps the offsets of both directions in
range, whatever the descriptors are. -/
theorem loopBody_bounds (cap : Nat) (fds : Fds) (rset wset : FdSet) (s : State) (e : Env)
    (hin : InBounds cap s) (hout : OutBounds cap s) (hc : CallsOK cap fds rset wset s e) :
    (loopBody fds rset wset s e).sat (fun s1 => InBounds cap s1 ∧ OutBounds cap s1)
      (fun _ => True) := by
  refine loopBody_stages cap fds rset wset s e
    (fun s1 => InBounds cap s1 ∧ OutBounds cap s1)
    (fun s1 => InBounds cap s1 ∧ OutBounds cap s1)
    (fun s1 => InBounds cap s1 ∧ OutBounds cap s1)
    (fun s1 => InBounds cap s1 ∧ OutBounds cap s1) (fun _ => True) ?_ ?_ ?_ ?_ hc
  · intro cA
    unfold inReadStep
    split_ifs with g
    · exact sat_mono _ _ _ _ _
        (sat_state _ _ _ (SameOut s) (relayInRead_bounds cap s _ _ (cA g))
          (sameOut_relayInRead s _ _))
        (fun s1 h => ⟨h.1, outBounds_of_sameOut cap s s1 hout h.2⟩) (fun _ _ => trivial)
    · exact ⟨hin, hout⟩
  · rintro s1 ⟨hin1, hout1⟩ cB
    unfold inPendingStep
    split_ifs with g
    · exact sat_mono _ _ _ _ _
        (sat_state _ _ _ (SameOut s1) (relayInPending_bounds cap s1 _ hin1 (cB g))
          (sameOut_relayInPending s1 _))
        (fun s2 h => ⟨h.1, outBounds_of_sameOut cap s1 s2 hout1 h.2⟩) (fun _ _ => trivial)
    · exact ⟨hin1, hout1⟩
  · rintro s2 ⟨hin2, hout2⟩ cC
    unfold outReadStep
    split_ifs with g
    · exact sat_mono _ _ _ _ _
        (sat_state _ _ _ (SameIn s2) (relayOutRead_bounds cap s2 _ _ (cC g))
          (sameIn_relayOutRead s2 _ _))
        (fun s3 h => ⟨inBounds_of_sameIn cap s2 s3 hin2 h.2, h.1⟩) (fun _ _ => trivial)
    · exact ⟨hin2, hout2⟩
  · rintro s3 ⟨hin3, hout3⟩ cD
    unfold outPendingStep
    split_ifs with g
    · exact sat_mono _ _ _ _ _
        (sat_state _ _ _ (SameIn s3) (relayOutPending_bounds cap s3 _ hout3 (cD g))
          (sameIn_relayOutPending s3 _))
        (fun s4 h => ⟨inBounds_of_sameIn cap s3 s4 hin3 h.2, h.1⟩) (fun _ _ => trivial)
    · exact ⟨hin3, hout3⟩

theorem iteration_bounds (cap : Nat) (fds : Fds) (s : State) (e : Env)
    (hin : InBounds cap s) (hout : OutBounds cap s) (hA : Answers cap fds s e) :
    (iteration fds s e).sat (fun s1 => InBounds cap s1 ∧ OutBounds cap s1)
      (fun _ => True) := by
  simp only [iteration]
  split_ifs with c
  · exact trivial
  · exact loopBody_bounds cap fds _ _ s e hin hout (hA c)

theorem deliver_fields (sigs : List Int) (s : State) :
    SameIn s (deliver sigs s) ∧ SameOut s (deliver sigs s) :=
  ⟨⟨⟨rfl, rfl, rfl, rfl⟩, rfl, rfl⟩, ⟨⟨rfl, rfl, rfl, rfl⟩, rfl, rfl⟩⟩

theorem runLoop_bounds (cap : Nat) (fds : Fds) (evs : List Env) :
    ∀ s, InBounds cap s → OutBounds cap s → Conforms cap fds s evs →
      (runLoop fds s evs).sat (fun s1 => InBounds cap s1 ∧ OutBounds cap s1)
        (fun _ => True) := by
  induction evs with
  | nil =>
    intro s hin hout _
    exact ⟨hin, hout⟩
  | cons e es ih =>
    intro s hin hout hc
    obtain ⟨hA, hrest⟩ := hc
    have hdl := deliver_fields e.signals s
    have hit := iteration_bounds cap fds (deliver e.signals s) e
      (inBounds_of_sameIn cap _ _ hin hdl.1) (outBounds_of_sameOut cap _ _ hout hdl.2) hA
    simp only [runLoop]
    cases hres : iteration fds (deliver e.signals s) e with
    | cont s1 =>
      rw [hres] at hit hrest
      exact ih s1 hit.1 hit.2 hrest
    | quit s1 why => exact trivial

/-- One pass through the loop body keeps both directions in order, when the
master is not the descriptor of standard input and `select` reported only
watched descriptors. -/
theorem loopBody_ok (cap : Nat) (fds : Fds) (s : State) (e : Env) (rset wset : FdSet)
    (hd : fds.in_ ≠ fds.master)
    (hr : ∀ fd, fd ∈ rset → fd ∈ readfdset fds s)
    (hin : InOK cap s) (hout : OutOK cap s) (hc : CallsOK cap fds rset wset s e) :
    (loopBody fds rset wset s e).sat (fun s1 => InOK cap s1 ∧ OutOK cap s1)
      (fun s1 => InStream s1 ∧ OutStream s1) := by
  have gA : FD_ISSET fds.in_ rset = true → s.inw = s.inr := by
    intro h
    rcases (mem_readfdset fds s _).mp (hr _ (of_decide_eq_true h)) with h1 | h1
    · exact absurd h1.1 hd
    · exact h1.2
  have gC : FD_ISSET fds.master rset = true → s.outw = s.outr := by
    intro h
    rcases (mem_readfdset fds s _).mp (hr _ (of_decide_eq_true h)) with h1 | h1
    · exact h1.2
    · exact absurd h1.1.symm hd
  refine loopBody_stages cap fds rset wset s e
    (fun s1 => InOK cap s1 ∧ SameOut s s1)
    (fun s1 => InOK cap s1 ∧ SameOut s s1)
    (fun s1 => InOK cap s1 ∧ OutOK cap s1)
    (fun s1 => InOK cap s1 ∧ OutOK cap s1)
    (fun s1 => InStream s1 ∧ OutStream s1) ?_ ?_ ?_ ?_ hc
  · intro cA
    unfold inReadStep
    split_ifs with g
    · exact sat_mono _ _ _ _ _
        (sat_state _ _ _ (SameOut s)
          (relayInRead_ok cap s _ _ hin (gA g) (cA g).1 (cA g).2)
          (sameOut_relayInRead s _ _))
        (fun _ h => h)
        (fun s1 h => ⟨h.1, outStream_of_sameOut s s1 hout.2.2.2 h.2⟩)
    · exact ⟨hin, sameOut_refl s⟩
  · rintro s1 ⟨hin1, hso⟩ cB
    unfold inPendingStep
    split_ifs with g
    · exact sat_mono _ _ _ _ _
        (sat_state _ _ _ (SameOut s1) (relayInPending_ok cap s1 _ hin1 (cB g))
          (sameOut_relayInPending s1 _))
        (fun s2 h => ⟨h.1, sameOut_trans s s1 s2 hso h.2⟩)
        (fun s2 h => ⟨h.1, outStream_of_sameOut s s2 hout.2.2.2
          (sameOut_trans s s1 s2 hso h.2)⟩)
    · exact ⟨hin1, hso⟩
  · rintro s2 ⟨hin2, hso⟩ cC
    have hout2 := outOK_of_sameOut cap s s2 hout hso
    have hso1 := hso
    obtain ⟨⟨e1, _, _, _⟩, e5, _⟩ := hso1
    unfold outReadStep
    split_ifs with g
    · exact sat_mono _ _ _ _ _
        (sat_state _ _ _ (SameIn s2)
          (relayOutRead_ok cap s2 _ _ hout2 (by rw [e1, e5]; exact gC g) (cC g).1 (cC g).2)
          (sameIn_relayOutRead s2 _ _))
        (fun s3 h => ⟨inOK_of_sameIn cap s2 s3 hin2 h.2, h.1⟩)
        (fun s3 h => ⟨inStream_of_sameIn s2 s3 hin2.2.2.2 h.2, h.1⟩)
    · exact ⟨hin2, hout2⟩
  · rintro s3 ⟨hin3, hout3⟩ cD
    unfold outPendingStep
    split_ifs with g
    · exact sat_mono _ _ _ _ _
        (sat_state _ _ _ (SameIn s3) (relayOutPending_ok cap s3 _ hout3 (cD g))
          (sameIn_relayOutPending s3 _))
        (fun s4 h => ⟨inOK_of_sameIn cap s3 s4 hin3 h.2, h.1⟩)
        (fun s4 h => ⟨inStream_of_sameIn s3 s4 hin3.2.2.2 h.2, h.1⟩)
    · exact ⟨hin3, hout3⟩

theorem iteration_ok (cap : Nat) (fds : Fds) (s : State) (e : Env)
    (hd : fds.in_ ≠ fds.master)
    (hin : InOK cap s) (hout : OutOK cap s) (hA : Answers cap fds s e) :
    (iteration fds s e).sat (fun s1 => InOK cap s1 ∧ OutOK cap s1)
      (fun s1 => InStream s1 ∧ OutStream s1) := by
  have hsub := select_subset (fds.master + 1) (readfdset fds s) (writefdset fds s)
    e.selRet e.rready e.wready
  simp only [iteration]
  split_ifs with c
  · exact ⟨hin.2.2.2, hout.2.2.2⟩
  · exact loopBody_ok cap fds s e _ _ hd hsub.1 hin hout (hA c)

theorem runLoop_ok (cap : Nat) (fds : Fds) (hd : fds.in_ ≠ fds.master) (evs : List Env) :
    ∀ s, InOK cap s → OutOK cap s → Conforms cap fds s evs →
      (runLoop fds s evs).sat (fun s1 => InOK cap s1 ∧ OutOK cap s1)
        (fun s1 => InStream s1 ∧ OutStream s1) := by
  induction evs with
  | nil =>
    intro s hin hout _
    exact ⟨hin, hout⟩
  | cons e es ih =>
    intro s hin hout hc
    obtain ⟨hA, hrest⟩ := hc
    have hdl := deliver_fields e.signals s
    have hit := iteration_ok cap fds (deliver e.signals s) e hd
      (inOK_of_sameIn cap _ _ hin hdl.1) (outOK_of_sameOut cap _ _ hout hdl.2) hA
    simp only [runLoop]
    cases hres : iteration fds (deliver e.signals s) e with
    | cont s1 =>
      rw [hres] at hit hrest
      exact ih s1 hit.1 hit.2 hrest
    | quit s1 why =>
      rw [hres] at hit
      exact hit

theorem init_ok (cap : Nat) (inbuf outbuf : List Byte) :
    InOK cap (init inbuf outbuf) ∧ OutOK cap (init inbuf outbuf) := by
  refine ⟨⟨le_refl _, le_refl _, ?_, ?_⟩, ⟨le_refl _, le_refl _, ?_, ?_⟩⟩
  · exact Int.natCast_nonneg cap
  · exact slice_nil _ _ _ (le_refl _)
  · exact Int.natCast_nonneg cap
  · exact slice_nil _ _ _ (le_refl _)

/-! ### The wait step and the quit flag -/

theorem notSelect_cont (s : State) : (Outcome.cont s).notSelect := by
  intro s1 h
  cases h

theorem notSelect_andThen (o : Outcome) (f : State → Outcome) (ho : o.notSelect)
    (hf : ∀ s, (f s).notSelect) : (o.andThen f).notSelect := by
  cases o with
  | cont s => exact hf s
  | quit s why =>
    intro s1 h
    simp only [Outcome.andThen] at h
    exact ho s1 h

theorem notSelect_relayInRead (s : State) (rd : ReadRes) (wr : WriteRes) :
    (relayInRead s rd wr).notSelect := by
  intro s1
  simp only [relayInRead]
  split_ifs <;> simp

theorem notSelect_relayInPending (s : State) (wr : WriteRes) :
    (relayInPending s wr).notSelect := by
  intro s1
  simp only [relayInPending]
  split_ifs <;> simp

theorem notSelect_relayOutRead (s : State) (rd : ReadRes) (wr : WriteRes) :
    (relayOutRead s rd wr).notSelect := by
  intro s1
  simp only [relayOutRead]
  split_ifs <;> simp

theorem notSelect_relayOutPending (s : State) (wr : WriteRes) :
    (relayOutPending s wr).notSelect := by
  intro s1
  simp only [relayOutPending]
  split_ifs <;> simp

theorem notSelect_loopBody (fds : Fds) (rset wset : FdSet) (s : State) (e : Env) :
    (loopBody fds rset wset s e).notSelect := by
  unfold loopBody
  refine notSelect_andThen _ _ (notSelect_andThen _ _ (notSelect_andThen _ _ ?_ ?_) ?_) ?_
  · split_ifs
    · exact notSelect_relayInRead _ _ _
    · exact notSelect_cont _
  · intro s1
    split_ifs
    · exact notSelect_relayInPending _ _
    · exact notSelect_cont _
  · intro s1
    split_ifs
    · exact notSelect_relayOutRead _ _ _
    · exact notSelect_cont _
  · intro s1
    split_ifs
    · exact notSelect_relayOutPending _ _
    · exact notSelect_cont _

theorem withQuit_andThen (q : Int) (o : Outcome) (f : State → Outcome)
    (hf : ∀ s, f { s with quit := q } = (f s).withQuit q) :
    (o.withQuit q).andThen f = (o.andThen f).withQuit q := by
  cases o with
  | cont s => simpa [Outcome.withQuit, Outcome.andThen] using hf s
  | quit s why => rfl

theorem withQuit_relayInRead (q : Int) (s : State) (rd : ReadRes) (wr : WriteRes) :
    relayInRead { s with quit := q } rd wr = (relayInRead s rd wr).withQuit q := by
  simp only [relayInRead]
  split_ifs <;> rfl

theorem withQuit_relayInPending (q : Int) (s : State) (wr : WriteRes) :
    relayInPending { s with quit := q } wr = (relayInPending s wr).withQuit q := by
  simp only [relayInPending]
  split_ifs <;> rfl

theorem withQuit_relayOutRead (q : Int) (s : State) (rd : ReadRes) (wr : WriteRes) :
    relayOutRead { s with quit := q } rd wr = (relayOutRead s rd wr).withQuit q := by
  simp only [relayOutRead]
  split_ifs <;> rfl

theorem withQuit_relayOutPending (q : Int) (s : State) (wr : WriteRes) :
    relayOutPending { s with quit := q } wr = (relayOutPending s wr).withQuit q := by
  simp only [relayOutPending]
  split_ifs <;> rfl

theorem withQuit_loopBody (q : Int) (fds : Fds) (rset wset : FdSet) (s : State) (e : Env) :
    loopBody fds rset wset { s with quit := q } e = (loopBody fds rset wset s e).withQuit q := by
  unfold loopBody
  rw [← withQuit_andThen, ← withQuit_andThen, ← withQuit_andThen]
  · congr 3
    split_ifs
    · exact withQuit_relayInRead q s _ _
    · rfl
  · intro s1
    split_ifs
    · exact withQuit_relayInPending q s1 _
    · rfl
  · intro s1
    split_ifs
    · exact withQuit_relayOutRead q s1 _ _
    · rfl
  · intro s1
    split_ifs
    · exact withQuit_relayOutPending q s1 _
    · rfl

theorem wrapInt_succ (q : Int) (h : INT_MIN ≤ q ∧ q < INT_MAX) : wrapInt (q + 1) = q + 1 := by
  unfold INT_MIN INT_MAX at h
  unfold wrapInt
  omega

set_option maxRecDepth 100000 in
theorem wexitstatus_exitcode : ∀ N, N < 256 →
    (W_EXITCODE N 0 &&& 0x7f) = 0 ∧ (W_EXITCODE N 0 &&& 0xff00) >>> 8 = N := by
  decide

set_option maxRecDepth 100000 in
theorem wtermsig_signal : ∀ sig, sig < 127 → ∀ core, core < 2 →
    (W_EXITCODE 0 sig ||| core * 128) &&& 0x7f = sig := by
  decide

theorem wexitstatus_le (status : Nat) : WEXITSTATUS status ≤ 255 := by
  unfold WEXITSTATUS
  have h : status &&& 0xff00 ≤ 0xff00 := Nat.and_le_right
  rw [Nat.shiftRight_eq_div_pow]
  omega

/-- C1: the exit code of the runner is the exit code of the child when the
collected status says the child exited normally, and 1 for every other status;
the status of a child that called `exit(N)` with `N ≤ 255` gives `N`, the status
of a child killed by a signal gives 1 and the line naming the signal. Every run
of `main` that leaves the relay loop exits with the code so computed from the
status that the shutdown sequence collected. -/
theorem report_exit_code (status N sig core : Nat) (hN : N ≤ 255)
    (hsig : 0 < sig ∧ sig < 127) (hcore : core < 2) :
    (WIFEXITED status = true →
      (report status).1 = WEXITSTATUS status ∧ WEXITSTATUS status ≤ 255) ∧
    (WIFEXITED status = false → (report status).1 = 1) ∧
    report (W_EXITCODE N 0) = (N, [.childExited N]) ∧
    report (W_EXITCODE 0 sig ||| core * 128) = (1, [.childSignaled sig]) ∧
    (∀ (b : Boot) (evs : List Env) (sd : ShutEnv) (path : String) (master slave : Int)
        (s : State) (why : Reason),
      2 ≤ b.argc → 0 < b.fork →
      openmaster b.posix_openpt b.grantpt b.unlockpt b.ptsname = some (path, master, slave) →
      runLoop ⟨b.in_, b.out, master⟩ (init b.inbuf b.outbuf) evs = .quit s why →
      main b evs sd = .exited (report (shutdown b.status0 sd).2).1
        (.print why.text :: (report (shutdown b.status0 sd).2).2) s.outDst) := by
  have hle : WEXITSTATUS status ≤ 255 := wexitstatus_le status
  have hex := wexitstatus_exitcode N (by omega)
  have hsg := wtermsig_signal sig hsig.2 core hcore
  refine ⟨fun h => ⟨?_, hle⟩, fun h => ?_, ?_, ?_, ?_⟩
  rotate_right
  · intro b evs sd path master slave s why h2 hf hpty hrun
    have h2n : ¬ b.argc < 2 := by omega
    have hfn : ¬ b.fork < 0 := by omega
    have hf0 : ¬ b.fork = 0 := by omega
    simp only [main, if_neg h2n, hpty, if_neg hfn, if_neg hf0, hrun]
  · simp only [report, h, if_true, exitCode]
    omega
  · simp [report, h, exitCode]
  · have h1 : WIFEXITED (W_EXITCODE N 0) = true := by simp [WIFEXITED, WTERMSIG, hex.1]
    have h2 : WEXITSTATUS (W_EXITCODE N 0) = N := hex.2
    simp only [report, h1, if_true, h2, exitCode]
    have : N % 256 = N := by omega
    rw [this]
  · have h0 : WTERMSIG (W_EXITCODE 0 sig ||| core * 128) = sig := hsg
    have h1 : WIFEXITED (W_EXITCODE 0 sig ||| core * 128) = false := by
      simp only [WIFEXITED, h0]
      simp only [beq_eq_false_iff_ne]
      omega
    have h2 : WIFSIGNALED (W_EXITCODE 0 sig ||| core * 128) = true := by
      simp only [WIFSIGNALED, h0]
      simp only [decide_eq_true_eq]
      omega
    simp [report, h1, h2, h0, exitCode]

/-- Witness for C1: a child that exited with 17, one killed by signal 9, and a
whole run of the runner, interrupted in its first iteration, whose child had
exited with 17. -/
theorem report_exit_code_witness :
    report (W_EXITCODE 17 0) = (17, [.childExited 17]) ∧
    report (W_EXITCODE 0 9 ||| 0 * 128) = (1, [.childSignaled 9]) ∧
    main bootProgram [envInterrupted] shutReaped
      = .exited 17 [.print "select", .childExited 17] [] :=
  ⟨(report_exit_code 0 17 9 0 (by decide) (by decide) (by decide)).2.2.1,
   (report_exit_code 0 17 9 0 (by decide) (by decide) (by decide)).2.2.2.1,
   (report_exit_code 0 17 9 0 (by decide) (by decide) (by decide)).2.2.2.2
      bootProgram [envInterrupted] shutReaped "/dev/pts/7" 3 (-1) _ .select
      (by decide) (by decide) rfl rfl⟩

/-- C4 as amended: a start with fewer than two arguments exits with code 1,
having written nothing to the output or error streams, whatever the operating
system would have answered to later calls. -/
theorem main_no_program (b : Boot) (evs : List Env) (sd : ShutEnv) (h : b.argc < 2) :
    main b evs sd = .exited 1 [] [] := by
  simp [main, h, exitCode]

/-- Witness for C4 as amended. -/
theorem main_no_program_witness :
    bootNoProgram.argc < 2 ∧ main bootNoProgram [] shutInterrupted = .exited 1 [] [] :=
  ⟨by decide, main_no_program bootNoProgram [] shutInterrupted (by decide)⟩

/-- Counterexample to C4 as stated: started with one argument the runner exits
with code 1, which is not at least 2. -/
theorem main_no_program_code_below_two :
    bootNoProgram.argc < 2 ∧
    ∃ code err out, main bootNoProgram [] shutInterrupted = .exited code err out ∧
      ¬ 2 ≤ code :=
  ⟨by decide, 1, [], [], by simp [main, bootNoProgram, exitCode], by decide⟩

/-- C6, the code at the failing input: the child is still running at the
non-blocking collection and when the bounded wait returns, the wait was
interrupted (return value -1), and the sequence goes on to the blocking
`waitpid` without sending `SIGKILL`. -/
theorem shutdown_interrupted_sends_no_kill :
    shutInterrupted.nohang = 0 ∧ shutInterrupted.childRunning = true ∧
    shutInterrupted.selRet = -1 ∧
    (shutdown 0 shutInterrupted).1 =
      [.closeMaster, .waitpidNohang, .signalSigchld, .selectTimeout,
       .waitpidBlocking, .restoreBlocking] ∧
    Act.killChild ∉ (shutdown 0 shutInterrupted).1 := by
  decide

/-- C7, the code at the failing input: with standard input, standard output
and the pty master on three distinct open file descriptions, the table left by
`set_nonblocking(in, master)` has the non-blocking flag on standard input and on
the master, and not on standard output. -/
theorem stdout_not_made_nonblocking :
    isNonblocking (tableAtLoop tablePipes fdsUsual.in_ fdsUsual.master) fdsUsual.in_ = true ∧
    isNonblocking (tableAtLoop tablePipes fdsUsual.in_ fdsUsual.master) fdsUsual.master = true ∧
    isNonblocking tablePipes fdsUsual.out = false ∧
    isNonblocking (tableAtLoop tablePipes fdsUsual.in_ fdsUsual.master) fdsUsual.out = false := by
  decide

/-- C10: the handler adds exactly one to the quit flag for every signal other
than `SIGCHLD` (as long as the `int` does not overflow) and leaves it unchanged
for `SIGCHLD`; an iteration leaves the loop at the wait step exactly when
`select` failed and the flag is non-zero; and the flag is read nowhere else:
two flag values under which the wait step does not leave the loop give the same
outcome of the iteration, up to the flag itself. -/
theorem quit_flag_wait_step (fds : Fds) (s : State) (e : Env) (sig q : Int)
    (hsig : sig ≠ SIGCHLD) (hq : INT_MIN ≤ q ∧ q < INT_MAX) :
    sighdlr sig q = q + 1 ∧ sighdlr SIGCHLD q = q ∧
    ((∃ s1, iteration fds s e = .quit s1 .select) ↔ (e.selRet < 0 ∧ s.quit ≠ 0)) ∧
    (e.selRet < 0 ∧ s.quit ≠ 0 → iteration fds s e = .quit s .select) ∧
    (¬ (e.selRet < 0 ∧ s.quit ≠ 0) → ¬ (e.selRet < 0 ∧ q ≠ 0) →
      iteration fds { s with quit := q } e = (iteration fds s e).withQuit q) := by
  have hsel : (select (fds.master + 1) (readfdset fds s) (writefdset fds s)
      e.selRet e.rready e.wready).1 = e.selRet := by
    unfold select
    split_ifs <;> rfl
  refine ⟨?_, ?_, ?_, ?_, ?_⟩
  · simp only [sighdlr, if_neg hsig]
    exact wrapInt_succ q hq
  · simp [sighdlr]
  · constructor
    · rintro ⟨s1, h⟩
      by_contra hc
      simp only [iteration, hsel, if_neg hc] at h
      exact notSelect_loopBody _ _ _ _ _ s1 h
    · intro hc
      exact ⟨s, by simp only [iteration, hsel, if_pos hc]⟩
  · intro hc
    simp only [iteration, hsel, if_pos hc]
  · intro h1 h2
    have hr : readfdset fds { s with quit := q } = readfdset fds s := rfl
    have hw : writefdset fds { s with quit := q } = writefdset fds s := rfl
    simp only [iteration, hr, hw, hsel, if_neg h1, if_neg h2]
    exact withQuit_loopBody q fds _ _ s e

/-- Witness for C10: an interrupt request raises the flag from 0 to 1. -/
theorem quit_flag_wait_step_witness :
    SIGINT ≠ SIGCHLD ∧ sighdlr SIGINT 0 = 0 + 1 :=
  ⟨by decide, (quit_flag_wait_step fdsUsual statePending envIdle SIGINT 0
    (by decide) (by decide)).1⟩

/-- C9: the write of a Pending remainder, in both directions. With
`left = read-length - write-offset` and result `w`: `w ≤ 0` leaves the loop
with the state unchanged; `0 < w < left` advances the write-offset by `w` and
the direction stays Pending; `w = left` makes the write-offset equal to the
read-length. The read-length and the buffer are unchanged in every case. The
statement holds for every state, so in particular when `left > 0`. -/
theorem pending_write_outcomes (s : State) (wr : WriteRes) :
    ((wr.ret ≤ 0 → relayInPending s wr = .quit s .writeIn) ∧
     (0 < wr.ret → ∃ s1, relayInPending s wr = .cont s1 ∧ s1.inw = s.inw + wr.ret ∧
        s1.inr = s.inr ∧ s1.inbuf = s.inbuf ∧
        (wr.ret < s.inr - s.inw → s1.inw < s1.inr) ∧
        (wr.ret = s.inr - s.inw → s1.inw = s1.inr))) ∧
    ((wr.ret ≤ 0 → relayOutPending s wr = .quit s .writeOut) ∧
     (0 < wr.ret → ∃ s1, relayOutPending s wr = .cont s1 ∧ s1.outw = s.outw + wr.ret ∧
        s1.outr = s.outr ∧ s1.outbuf = s.outbuf ∧
        (wr.ret < s.outr - s.outw → s1.outw < s1.outr) ∧
        (wr.ret = s.outr - s.outw → s1.outw = s1.outr))) := by
  refine ⟨⟨fun h => ?_, fun h => ?_⟩, ⟨fun h => ?_, fun h => ?_⟩⟩
  · have h1 : wr.ret < 1 := by omega
    simp only [relayInPending, if_pos h1, written_nonpos _ _ _ _ h, List.append_nil]
  · have h1 : ¬ wr.ret < 1 := by omega
    simp only [relayInPending, if_neg h1]
    exact ⟨_, rfl, rfl, rfl, rfl, fun h2 => by simp only; omega, fun h2 => by simp only; omega⟩
  · have h1 : wr.ret < 1 := by omega
    simp only [relayOutPending, if_pos h1, written_nonpos _ _ _ _ h, List.append_nil]
  · have h1 : ¬ wr.ret < 1 := by omega
    simp only [relayOutPending, if_neg h1]
    exact ⟨_, rfl, rfl, rfl, rfl, fun h2 => by simp only; omega, fun h2 => by simp only; omega⟩

/-- Witness for C9: a short write of one byte with two bytes left. -/
theorem pending_write_outcomes_witness :
    0 < statePending.inr - statePending.inw ∧
    ∃ s1, relayInPending statePending ⟨1, 0⟩ = .cont s1 ∧ s1.inw = statePending.inw + 1 :=
  ⟨by decide, by
    obtain ⟨s1, h1, h2, _⟩ :=
      (pending_write_outcomes statePending ⟨1, 0⟩).1.2 (by decide)
    exact ⟨s1, h1, h2⟩⟩

/-- C3: at the start of every iteration of the relay loop, both Directional
Buffers satisfy `0 ≤ write-offset ≤ read-length ≤ capacity`, provided no `read`
and no `write` returns more than the count it was asked for; hence neither
direction holds more than one buffer of unflushed bytes, however many iterations
have run. This holds whatever the three descriptors are. -/
theorem relay_offsets_in_range (BUFSIZ : Nat) (fds : Fds) (inbuf outbuf : List Byte)
    (evs : List Env) (s : State)
    (hc : Conforms (capacity BUFSIZ) fds (init inbuf outbuf) evs)
    (hrun : runLoop fds (init inbuf outbuf) evs = .cont s) :
    (0 ≤ s.inw ∧ s.inw ≤ s.inr ∧ s.inr ≤ capacity BUFSIZ) ∧
    (0 ≤ s.outw ∧ s.outw ≤ s.outr ∧ s.outr ≤ capacity BUFSIZ) ∧
    (slice s.inbuf s.inw s.inr).length ≤ capacity BUFSIZ ∧
    (slice s.outbuf s.outw s.outr).length ≤ capacity BUFSIZ := by
  have h0 := init_ok (capacity BUFSIZ) inbuf outbuf
  have h := runLoop_bounds (capacity BUFSIZ) fds evs (init inbuf outbuf)
    ⟨h0.1.1, h0.1.2.1, h0.1.2.2.1⟩ ⟨h0.2.1, h0.2.2.1, h0.2.2.2.1⟩ hc
  rw [hrun] at h
  obtain ⟨⟨i1, i2, i3⟩, ⟨o1, o2, o3⟩⟩ := h
  refine ⟨⟨i1, i2, i3⟩, ⟨o1, o2, o3⟩, ?_, ?_⟩
  · simp only [slice, List.length_drop, List.length_take]
    omega
  · simp only [slice, List.length_drop, List.length_take]
    omega

/-- Witness for C3: after three bytes were read and one was written at once,
the next iteration starts with offsets 1 and 3 in a buffer of capacity 4. -/
theorem relay_offsets_in_range_witness :
    ∃ s, runLoop fdsUsual (init [0, 0, 0, 0] [0, 0, 0, 0]) [envReadThree] = .cont s ∧
      (0 ≤ s.inw ∧ s.inw ≤ s.inr ∧ s.inr ≤ capacity 1) :=
  ⟨_, rfl, (relay_offsets_in_range 1 fdsUsual [0, 0, 0, 0] [0, 0, 0, 0] [envReadThree] _
    ⟨by unfold Answers CallsOK ReadOK; decide, trivial⟩ rfl).1⟩

/-- Counterexample to C2 as stated. A runner started with descriptor 0 closed
has the master on descriptor 0, the descriptor of standard input. Every call of
the run below returns at most the count it was asked for; the second iteration
reads into `inbuf` while two of its bytes are unflushed, and the loop goes on
with `1, 2, 3, 7` read from the source, `1, 7` accepted by the destination and
nothing unflushed: bytes 2 and 3 are lost. -/
theorem relay_stream_broken_on_shared_descriptor :
    Conforms (capacity 1) fdsStdinClosed (init [0, 0, 0, 0] [0, 0, 0, 0])
      [envBothRead, envReadSeven] ∧
    (runLoop fdsStdinClosed (init [0, 0, 0, 0] [0, 0, 0, 0])
      [envBothRead, envReadSeven]).state.inSrc = [1, 2, 3, 7] ∧
    (runLoop fdsStdinClosed (init [0, 0, 0, 0] [0, 0, 0, 0])
      [envBothRead, envReadSeven]).state.inDst = [1, 7] ∧
    (runLoop fdsStdinClosed (init [0, 0, 0, 0] [0, 0, 0, 0])
        [envBothRead, envReadSeven]).state.inDst ++
      slice
        (runLoop fdsStdinClosed (init [0, 0, 0, 0] [0, 0, 0, 0])
          [envBothRead, envReadSeven]).state.inbuf
        (runLoop fdsStdinClosed (init [0, 0, 0, 0] [0, 0, 0, 0])
          [envBothRead, envReadSeven]).state.inw
        (runLoop fdsStdinClosed (init [0, 0, 0, 0] [0, 0, 0, 0])
          [envBothRead, envReadSeven]).state.inr
      ≠ (runLoop fdsStdinClosed (init [0, 0, 0, 0] [0, 0, 0, 0])
          [envBothRead, envReadSeven]).state.inSrc :=
  ⟨⟨by unfold Answers CallsOK ReadOK; decide, by unfold Answers CallsOK ReadOK; decide, trivial⟩,
   rfl, rfl, by decide⟩

/-- C2 as amended: for both directions and every run of the relay loop in which
no `read` and no `write` returns more than the count it was asked for, provided
the master is not the descriptor of standard input: at every iteration boundary
and when the loop is left, the bytes accepted so far by the destination followed
by the unflushed bytes `buf[write-offset .. read-length)` are the bytes read so
far from the source; so the delivered bytes are a prefix of the received
bytes. -/
theorem relay_stream_intact (BUFSIZ : Nat) (fds : Fds) (inbuf outbuf : List Byte)
    (evs : List Env)
    (hd : fds.in_ ≠ fds.master)
    (hc : Conforms (capacity BUFSIZ) fds (init inbuf outbuf) evs) :
    ((runLoop fds (init inbuf outbuf) evs).state.inDst ++
        slice (runLoop fds (init inbuf outbuf) evs).state.inbuf
          (runLoop fds (init inbuf outbuf) evs).state.inw
          (runLoop fds (init inbuf outbuf) evs).state.inr
      = (runLoop fds (init inbuf outbuf) evs).state.inSrc) ∧
    ((runLoop fds (init inbuf outbuf) evs).state.outDst ++
        slice (runLoop fds (init inbuf outbuf) evs).state.outbuf
          (runLoop fds (init inbuf outbuf) evs).state.outw
          (runLoop fds (init inbuf outbuf) evs).state.outr
      = (runLoop fds (init inbuf outbuf) evs).state.outSrc) ∧
    (∃ t, (runLoop fds (init inbuf outbuf) evs).state.inSrc
        = (runLoop fds (init inbuf outbuf) evs).state.inDst ++ t) ∧
    (∃ t, (runLoop fds (init inbuf outbuf) evs).state.outSrc
        = (runLoop fds (init inbuf outbuf) evs).state.outDst ++ t) := by
  have h := runLoop_ok (capacity BUFSIZ) fds hd evs (init inbuf outbuf)
    (init_ok _ _ _).1 (init_ok _ _ _).2 hc
  have hst : InStream (runLoop fds (init inbuf outbuf) evs).state ∧
      OutStream (runLoop fds (init inbuf outbuf) evs).state := by
    cases hres : runLoop fds (init inbuf outbuf) evs with
    | cont s1 =>
      rw [hres] at h
      exact ⟨h.1.2.2.2, h.2.2.2.2⟩
    | quit s1 why =>
      rw [hres] at h
      exact h
  exact ⟨hst.1, hst.2, ⟨_, hst.1.symm⟩, ⟨_, hst.2.symm⟩⟩

/-- Witness for C2 as amended: three bytes read, one written at once and one
more in the next iteration; the two delivered bytes followed by the unflushed
one are the three bytes read. -/
theorem relay_stream_intact_witness :
    (runLoop fdsUsual (init [0, 0, 0, 0] [0, 0, 0, 0]) [envReadThree, envFlushOne]).state.inDst
      = [1, 2] ∧
    (runLoop fdsUsual (init [0, 0, 0, 0] [0, 0, 0, 0]) [envReadThree, envFlushOne]).state.inDst ++
        slice
          (runLoop fdsUsual (init [0, 0, 0, 0] [0, 0, 0, 0]) [envReadThree, envFlushOne]).state.inbuf
          (runLoop fdsUsual (init [0, 0, 0, 0] [0, 0, 0, 0]) [envReadThree, envFlushOne]).state.inw
          (runLoop fdsUsual (init [0, 0, 0, 0] [0, 0, 0, 0]) [envReadThree, envFlushOne]).state.inr
      = (runLoop fdsUsual (init [0, 0, 0, 0] [0, 0, 0, 0])
          [envReadThree, envFlushOne]).state.inSrc :=
  ⟨rfl, (relay_stream_intact 1 fdsUsual [0, 0, 0, 0] [0, 0, 0, 0] [envReadThree, envFlushOne]
    (by decide)
    ⟨by unfold Answers CallsOK ReadOK; decide, by unfold Answers CallsOK ReadOK; decide, trivial⟩).1⟩

end Runpty
